import Mathlib

/-!
Verification of `basic_models/admin.py` (django-basic-models).

The repository provides Django `ModelAdmin` mixins.  The behaviour worth
verifying is:

* `ActiveModelAdmin._set_objects_active` — the bulk activate/deactivate
  toggle (row-locked, transactional, per-record partial save, status
  message with a count and a pluralised label);
* `UserModelAdmin.save_model` / `save_formset` / `_update_instance` —
  the user-stamping save hook with its delete-before-save formset step
  and its tolerance for double deletion;
* `ActiveModelAdmin.get_actions` — removal of the bulk delete action
  when the requesting user lacks delete permission.

The host data store is shallowly embedded as a list of records; Django's
per-row operations (`obj.save(update_fields=['is_active'])`, `obj.delete()`,
`instance.save()`) become pure functions on that list, and
`@transaction.atomic` becomes rollback-to-entry-state on failure, which is
the collaborator contract the spec states for the host's transaction
primitive.
-/

/-- A persisted record of the host store.  `pk` is `none` while the record
is unsaved (Django's falsy `instance.pk`); `payload` stands for every field
other than the ones named here (timestamps, user data, ...). -/
structure Record where
  pk : Option Nat
  is_active : Bool
  created_by : Option Nat
  updated_by : Option Nat
  payload : Nat
deriving DecidableEq, Repr

/-- Whether a record belongs to the operator's selection `S` (a list of
primary keys): the queryset the admin action receives. -/
def selected (S : List Nat) (r : Record) : Bool :=
  match r.pk with
  | some i => decide (i ∈ S)
  | none => false

/-- One iteration of the toggle loop: `obj.is_active = active;
obj.save(update_fields=['is_active'])`.  The row-level save writes only the
`is_active` field of the rows whose primary key equals `obj.pk`; every
other field and every other row is untouched. -/
def toggleStep (active : Bool) (store : List Record) (obj : Record) : List Record :=
  store.map (fun r => if r.pk = obj.pk then { r with is_active := active } else r)

/-- Django's `model_ngettext(opts, n)`: the model's verbose name,
pluralised by the count. -/
def model_ngettext (singular plural : String) (n : Nat) : String :=
  if n = 1 then singular else plural

/-- The status message of `_set_objects_active`:
`"Successfully %(prefix)sactivated %(count)d %(items)s."` with
`prefix = "" if active else "de"`. -/
def successMessage (active : Bool) (count : Nat) (items : String) : String :=
  "Successfully " ++ (if active then "" else "de") ++ "activated "
    ++ toString count ++ " " ++ items ++ "."

/-- `ActiveModelAdmin._set_objects_active(request, queryset, active)`:
locks and walks the queryset, sets `is_active` on each object with a
partial-field save, counts the objects, and reports a status message.
Returns (final store, reported count, status message). -/
def set_objects_active (store : List Record) (S : List Nat) (active : Bool)
    (singular plural : String) : List Record × Nat × String :=
  let p := (store.filter (selected S)).foldl
    (fun acc obj => (toggleStep active acc.1 obj, acc.2 + 1)) (store, 0)
  (p.1, p.2, successMessage active p.2 (model_ngettext singular plural p.2))

/-- One iteration of the toggle loop when the per-record persist can fail
(`fails obj = true` models a persistence failure on saving `obj`). -/
def toggleLoopF (fails : Record → Bool) (active : Bool) :
    List Record → List Record → Nat → Option (List Record × Nat)
  | store, [], count => some (store, count)
  | store, obj :: objs, count =>
    if fails { obj with is_active := active } then none
    else toggleLoopF fails active (toggleStep active store obj) objs (count + 1)

/-- `_set_objects_active` under `@transaction.atomic` with a fallible
per-record persist: an exception aborts the operation and the transaction
rolls back to the entry state, and no success message is produced.  The
rollback semantics of `transaction.atomic` is the host framework's
contract as the spec records it. -/
def set_objects_activeF (fails : Record → Bool) (store : List Record) (S : List Nat)
    (active : Bool) (singular plural : String) : List Record × Option (Nat × String) :=
  match toggleLoopF fails active store (store.filter (selected S)) 0 with
  | none => (store, none)
  | some (st, count) =>
    (st, some (count, successMessage active count (model_ngettext singular plural count)))

example :
    (set_objects_active
      [⟨some 1, false, none, none, 10⟩, ⟨some 2, true, none, none, 20⟩,
       ⟨some 3, false, none, none, 30⟩] [1, 2, 3] true "widget" "widgets") =
    ([⟨some 1, true, none, none, 10⟩, ⟨some 2, true, none, none, 20⟩,
      ⟨some 3, true, none, none, 30⟩], 3, "Successfully activated 3 widgets.") := by
  decide

example :
    (set_objects_active [⟨some 1, true, none, none, 10⟩] [1] false "widget" "widgets") =
    ([⟨some 1, false, none, none, 10⟩], 1, "Successfully deactivated 1 widget.") := by
  decide

/-! ### Closed forms for the toggle loop -/

lemma selected_congr_pk (S : List Nat) {r o : Record} (h : r.pk = o.pk) :
    selected S r = selected S o := by
  unfold selected
  rw [h]

lemma toggle_fold_split (active : Bool) :
    ∀ (objs : List Record) (store : List Record) (c : Nat),
    objs.foldl (fun acc obj => (toggleStep active acc.1 obj, acc.2 + 1)) (store, c)
      = (objs.foldl (toggleStep active) store, c + objs.length)
  | [], store, c => by simp
  | obj :: objs, store, c => by
    simp only [List.foldl_cons, List.length_cons]
    rw [toggle_fold_split active objs (toggleStep active store obj) (c + 1)]
    congr 1
    omega

lemma foldl_toggleStep (active : Bool) :
    ∀ (objs store : List Record),
    objs.foldl (toggleStep active) store
      = store.map (fun r =>
          if r.pk ∈ objs.map Record.pk then { r with is_active := active } else r)
  | [], store => by simp
  | obj :: objs, store => by
    simp only [List.foldl_cons]
    rw [foldl_toggleStep active objs (toggleStep active store obj)]
    simp only [toggleStep, List.map_map]
    refine congrArg (fun f => List.map f store) (funext fun r => ?_)
    by_cases h1 : r.pk = obj.pk
    · by_cases h2 : r.pk ∈ objs.map Record.pk <;>
        simp [Function.comp, h1, h2, List.mem_cons]
    · by_cases h2 : r.pk ∈ objs.map Record.pk <;>
        simp [Function.comp, h1, h2, List.mem_cons]

lemma pk_mem_queryset_iff (store : List Record) (S : List Nat) {r : Record}
    (hr : r ∈ store) :
    r.pk ∈ (store.filter (selected S)).map Record.pk ↔ selected S r = true := by
  constructor
  · intro h
    obtain ⟨o, ho, hpk⟩ := List.mem_map.mp h
    have hsel : selected S o = true := (List.mem_filter.mp ho).2
    rw [← selected_congr_pk S hpk.symm] at hsel
    exact hsel
  · intro h
    exact List.mem_map.mpr ⟨r, List.mem_filter.mpr ⟨hr, h⟩, rfl⟩

lemma set_objects_active_fst (store : List Record) (S : List Nat) (active : Bool)
    (sg pl : String) :
    (set_objects_active store S active sg pl).1
      = store.map (fun r => if selected S r then { r with is_active := active } else r) := by
  unfold set_objects_active
  rw [toggle_fold_split, foldl_toggleStep]
  exact List.map_congr_left (fun r hr => by
    by_cases h : selected S r = true
    · rw [if_pos ((pk_mem_queryset_iff store S hr).mpr h), if_pos h]
    · rw [if_neg (fun hm => h ((pk_mem_queryset_iff store S hr).mp hm)),
        if_neg (by simpa using h)])

lemma set_objects_active_count (store : List Record) (S : List Nat) (active : Bool)
    (sg pl : String) :
    (set_objects_active store S active sg pl).2.1
      = (store.filter (selected S)).length := by
  unfold set_objects_active
  rw [toggle_fold_split]
  simp

lemma set_objects_active_msg (store : List Record) (S : List Nat) (active : Bool)
    (sg pl : String) :
    (set_objects_active store S active sg pl).2.2
      = successMessage active (store.filter (selected S)).length
          (model_ngettext sg pl (store.filter (selected S)).length) := by
  unfold set_objects_active
  rw [toggle_fold_split]
  simp

lemma selected_nil (r : Record) : selected [] r = false := by
  cases h : r.pk <;> simp [selected, h]

/-- C1: after toggle(S, t) every record whose primary key is in the
selection S has `is_active = t`, and every record outside the selection is
unchanged in all fields (it sits at the same position with the same field
values). -/
theorem toggle_selection_active_frame (store : List Record) (S : List Nat)
    (t : Bool) (sg pl : String) :
    (∀ r ∈ (set_objects_active store S t sg pl).1, ∀ i, r.pk = some i → i ∈ S →
      r.is_active = t)
    ∧ (∀ (n : Nat) (r : Record), store[n]? = some r → selected S r = false →
      (set_objects_active store S t sg pl).1[n]? = some r) := by
  constructor
  · intro r hr i hpk hiS
    rw [set_objects_active_fst] at hr
    obtain ⟨s, hs, rfl⟩ := List.mem_map.mp hr
    by_cases h : selected S s = true
    · simp [h]
    · rw [if_neg h] at hpk ⊢
      exact absurd (by simp [selected, hpk, hiS]) h
  · intro n r hn hsel
    simp [set_objects_active_fst, List.getElem?_map, hn, hsel]

theorem toggle_selection_active_frame_witness :
    ((⟨some 1, true, none, none, 10⟩ : Record) ∈
        (set_objects_active [⟨some 1, false, none, none, 10⟩,
          ⟨some 2, true, none, none, 20⟩] [1] true "w" "ws").1 ∧
      (⟨some 1, true, none, none, 10⟩ : Record).is_active = true)
    ∧ (set_objects_active [⟨some 1, false, none, none, 10⟩,
        ⟨some 2, true, none, none, 20⟩] [1] true "w" "ws").1[1]?
      = some ⟨some 2, true, none, none, 20⟩ :=
  ⟨⟨by decide,
    (toggle_selection_active_frame [⟨some 1, false, none, none, 10⟩,
      ⟨some 2, true, none, none, 20⟩] [1] true "w" "ws").1
      ⟨some 1, true, none, none, 10⟩ (by decide) 1 rfl (by decide)⟩,
   (toggle_selection_active_frame [⟨some 1, false, none, none, 10⟩,
      ⟨some 2, true, none, none, 20⟩] [1] true "w" "ws").2
      1 ⟨some 2, true, none, none, 20⟩ (by decide) (by decide)⟩

/-- C5: the toggle on the empty selection changes no record and its status
message reports the count 0. -/
theorem toggle_empty_selection (store : List Record) (t : Bool) (sg pl : String) :
    (set_objects_active store [] t sg pl).1 = store
    ∧ (set_objects_active store [] t sg pl).2.1 = 0
    ∧ ∃ pre post, (set_objects_active store [] t sg pl).2.2 = pre ++ "0" ++ post := by
  have hfilter : store.filter (selected []) = [] :=
    List.filter_eq_nil_iff.mpr (fun r _ => by simp [selected_nil])
  refine ⟨?_, ?_, ?_⟩
  · rw [set_objects_active_fst,
      List.map_congr_left (fun r _ => if_neg (by simp [selected_nil]))]
    exact List.map_id store
  · rw [set_objects_active_count, hfilter]
    rfl
  · refine ⟨"Successfully " ++ (if t then "" else "de") ++ "activated ",
      " " ++ model_ngettext sg pl 0 ++ ".", ?_⟩
    rw [set_objects_active_msg, hfilter]
    show successMessage t 0 (model_ngettext sg pl 0) = _
    rw [successMessage, show (toString (0 : Nat)) = "0" from rfl]
    simp only [String.append_assoc]

/-- C6: the per-record persist step of the toggle writes only `is_active`:
the saved row keeps its primary key and every other field, rows with a
different primary key are completely unchanged, and the matching row
changes at most its `is_active` value. -/
theorem partial_save_frame (active : Bool) (store : List Record) (obj : Record)
    (n : Nat) (r : Record) (hn : store[n]? = some r) :
    ∃ r', (toggleStep active store obj)[n]? = some r'
      ∧ r'.pk = r.pk ∧ r'.created_by = r.created_by ∧ r'.updated_by = r.updated_by
      ∧ r'.payload = r.payload
      ∧ (r.pk ≠ obj.pk → r' = r)
      ∧ (r.pk = obj.pk → r' = { r with is_active := active }) := by
  by_cases h : r.pk = obj.pk
  · exact ⟨{ r with is_active := active },
      by rw [toggleStep, List.getElem?_map, hn]; simp [h],
      rfl, rfl, rfl, rfl, fun hc => absurd h hc, fun _ => rfl⟩
  · exact ⟨r, by rw [toggleStep, List.getElem?_map, hn]; simp [h],
      rfl, rfl, rfl, rfl, fun _ => rfl, fun hc => absurd hc h⟩

theorem partial_save_frame_witness :
    ∃ r', (toggleStep true [⟨some 1, false, none, none, 10⟩,
        ⟨some 2, false, some 4, some 5, 20⟩] ⟨some 1, true, none, none, 10⟩)[1]?
        = some r'
      ∧ r'.pk = some 2 ∧ r'.created_by = some 4 ∧ r'.updated_by = some 5
      ∧ r'.payload = 20
      ∧ (some 2 ≠ some 1 → r' = ⟨some 2, false, some 4, some 5, 20⟩)
      ∧ (some 2 = some 1 → r' = ⟨some 2, true, some 4, some 5, 20⟩) :=
  partial_save_frame true [⟨some 1, false, none, none, 10⟩,
    ⟨some 2, false, some 4, some 5, 20⟩] ⟨some 1, true, none, none, 10⟩
    1 ⟨some 2, false, some 4, some 5, 20⟩ rfl

/-- C7: concrete scenario — three records A(inactive), B(active),
C(inactive) all selected, target `true`: all three end active, the count is
3, and the status message contains "activated 3" and the pluralised label. -/
theorem toggle_concrete_scenario :
    (set_objects_active
        [⟨some 1, false, none, none, 10⟩, ⟨some 2, true, none, none, 20⟩,
         ⟨some 3, false, none, none, 30⟩] [1, 2, 3] true "widget" "widgets")
      = ([⟨some 1, true, none, none, 10⟩, ⟨some 2, true, none, none, 20⟩,
          ⟨some 3, true, none, none, 30⟩], 3, "Successfully activated 3 widgets.")
    ∧ ∃ pre post,
      (set_objects_active
        [⟨some 1, false, none, none, 10⟩, ⟨some 2, true, none, none, 20⟩,
         ⟨some 3, false, none, none, 30⟩] [1, 2, 3] true "widget" "widgets").2.2
        = pre ++ "activated 3" ++ post :=
  ⟨by decide, "Successfully ", " widgets.", by decide⟩

/-- C4 counterexample: the round-trip claim fails as stated ("regardless of
the records' initial is_active values"): a record that is already active is
left inactive by toggle({1}, true) followed by toggle({1}, false). -/
theorem toggle_roundtrip_cex :
    (set_objects_active
        (set_objects_active [⟨some 1, true, none, none, 10⟩] [1] true "w" "ws").1
        [1] false "w" "ws").1
      ≠ [⟨some 1, true, none, none, 10⟩] := by
  decide

/-- C4 amended: toggle(S, t) followed by toggle(S, not t) restores the
original store exactly, provided every selected record initially had
`is_active = not t` (which holds in the spec's scenario, where the first
toggle is the one that changes the records). -/
theorem toggle_roundtrip_restores (store : List Record) (S : List Nat) (t : Bool)
    (sg pl : String)
    (h : ∀ r ∈ store, selected S r = true → r.is_active = !t) :
    (set_objects_active (set_objects_active store S t sg pl).1 S (!t) sg pl).1
      = store := by
  rw [set_objects_active_fst, set_objects_active_fst, List.map_map]
  refine (List.map_congr_left fun r hr => ?_).trans (List.map_id store)
  obtain ⟨pk, ia, cb, ub, pd⟩ := r
  by_cases hs : selected S ⟨pk, ia, cb, ub, pd⟩ = true
  · have hia : ia = !t := h _ hr hs
    subst hia
    have hs' : selected S (⟨pk, t, cb, ub, pd⟩ : Record) = true := hs
    simp [Function.comp, hs, hs']
  · simp [Function.comp, hs]

theorem toggle_roundtrip_restores_witness :
    (set_objects_active
        (set_objects_active [⟨some 1, false, none, none, 10⟩] [1] true "w" "ws").1
        [1] false "w" "ws").1
      = [⟨some 1, false, none, none, 10⟩] :=
  toggle_roundtrip_restores [⟨some 1, false, none, none, 10⟩] [1] true "w" "ws"
    (by decide)

/-- The fallible toggle loop aborts with no result as soon as any
per-record persist fails. -/
lemma toggleLoopF_none_of_fail (fails : Record → Bool) (active : Bool) :
    ∀ (objs store : List Record) (c : Nat),
    (∃ o ∈ objs, fails { o with is_active := active } = true) →
    toggleLoopF fails active store objs c = none
  | [], _, _, h => by simp at h
  | o :: os, store, c, h => by
    by_cases hf : fails { o with is_active := active } = true
    · simp [toggleLoopF, hf]
    · obtain ⟨x, hx, hfx⟩ := h
      rcases List.mem_cons.mp hx with rfl | hxs
      · exact absurd hfx hf
      · simp only [toggleLoopF, if_neg hf]
        exact toggleLoopF_none_of_fail fails active os _ (c + 1) ⟨x, hxs, hfx⟩

/-- C2: if persisting any single record of the selection fails, the whole
toggle aborts: the store rolls back to its entry state (no record's
`is_active` changes) and no success count or message is reported. -/
theorem toggle_failure_rolls_back (fails : Record → Bool) (store : List Record)
    (S : List Nat) (t : Bool) (sg pl : String)
    (h : ∃ o ∈ store.filter (selected S), fails { o with is_active := t } = true) :
    set_objects_activeF fails store S t sg pl = (store, none) := by
  unfold set_objects_activeF
  rw [toggleLoopF_none_of_fail fails t _ store 0 h]

theorem toggle_failure_rolls_back_witness :
    set_objects_activeF (fun r => r.pk == some 2)
      [⟨some 1, false, none, none, 10⟩, ⟨some 2, false, none, none, 20⟩]
      [1, 2] true "w" "ws"
      = ([⟨some 1, false, none, none, 10⟩, ⟨some 2, false, none, none, 20⟩], none) :=
  toggle_failure_rolls_back (fun r => r.pk == some 2)
    [⟨some 1, false, none, none, 10⟩, ⟨some 2, false, none, none, 20⟩]
    [1, 2] true "w" "ws"
    ⟨⟨some 2, false, none, none, 20⟩, by decide, by decide⟩

/-! ### Counting the queryset -/

lemma length_filter_selected_eq_pks (S : List Nat) :
    ∀ store : List Record,
    (store.filter (selected S)).length
      = ((store.filterMap Record.pk).filter (fun i => decide (i ∈ S))).length
  | [] => rfl
  | r :: rest => by
    cases h : r.pk with
    | none =>
      have hsel : selected S r = false := by simp [selected, h]
      simp [List.filter_cons, List.filterMap_cons, h, hsel,
        length_filter_selected_eq_pks S rest]
    | some i =>
      have hsel : selected S r = decide (i ∈ S) := by simp [selected, h]
      by_cases hi : i ∈ S
      · simp [List.filter_cons, List.filterMap_cons, h, hsel, hi,
          length_filter_selected_eq_pks S rest]
      · simp [List.filter_cons, List.filterMap_cons, h, hsel, hi,
          length_filter_selected_eq_pks S rest]

lemma length_filter_selected (store : List Record) (S : List Nat)
    (hS : S.Nodup) (hids : (store.filterMap Record.pk).Nodup)
    (hsub : ∀ s ∈ S, s ∈ store.filterMap Record.pk) :
    (store.filter (selected S)).length = S.length := by
  rw [length_filter_selected_eq_pks]
  refine List.Perm.length_eq ?_
  refine (List.perm_ext_iff_of_nodup (hids.filter _) hS).mpr (fun a => ?_)
  constructor
  · intro ha
    simpa using (List.mem_filter.mp ha).2
  · intro ha
    exact List.mem_filter.mpr ⟨hsub a ha, by simpa using ha⟩

lemma toggle_preserves_pks (store : List Record) (S : List Nat) (t : Bool)
    (sg pl : String) :
    (set_objects_active store S t sg pl).1.filterMap Record.pk
      = store.filterMap Record.pk := by
  rw [set_objects_active_fst, List.filterMap_map]
  refine congrArg (fun f => List.filterMap f store) (funext fun r => ?_)
  by_cases h : selected S r = true <;> simp [Function.comp, h]

/-- C3: the toggle is idempotent — running toggle(S, t) twice in a row
leaves the store exactly as after the first run, and both invocations
report the same count and the same message, the count being the size of the
selection (the selection consists of distinct primary keys that all exist
in the store). -/
theorem toggle_idempotent (store : List Record) (S : List Nat) (t : Bool)
    (sg pl : String) (hS : S.Nodup)
    (hids : (store.filterMap Record.pk).Nodup)
    (hsub : ∀ s ∈ S, s ∈ store.filterMap Record.pk) :
    (set_objects_active (set_objects_active store S t sg pl).1 S t sg pl).1
      = (set_objects_active store S t sg pl).1
    ∧ (set_objects_active store S t sg pl).2.1 = S.length
    ∧ (set_objects_active (set_objects_active store S t sg pl).1 S t sg pl).2.1
      = S.length
    ∧ (set_objects_active (set_objects_active store S t sg pl).1 S t sg pl).2.2
      = (set_objects_active store S t sg pl).2.2 := by
  have hlen2 :
      ((set_objects_active store S t sg pl).1.filter (selected S)).length
        = (store.filter (selected S)).length := by
    rw [length_filter_selected_eq_pks, toggle_preserves_pks,
      ← length_filter_selected_eq_pks]
  refine ⟨?_, ?_, ?_, ?_⟩
  · rw [set_objects_active_fst, set_objects_active_fst, List.map_map]
    refine congrArg (fun f => List.map f store) (funext fun r => ?_)
    obtain ⟨pk, ia, cb, ub, pd⟩ := r
    by_cases hs : selected S ⟨pk, ia, cb, ub, pd⟩ = true
    · have hs' : selected S (⟨pk, t, cb, ub, pd⟩ : Record) = true := hs
      simp [Function.comp, hs, hs']
    · simp [Function.comp, hs]
  · rw [set_objects_active_count]
    exact length_filter_selected store S hS hids hsub
  · rw [set_objects_active_count, hlen2]
    exact length_filter_selected store S hS hids hsub
  · rw [set_objects_active_msg, set_objects_active_msg, hlen2]

theorem toggle_idempotent_witness :
    (set_objects_active
        (set_objects_active [⟨some 1, false, none, none, 10⟩,
          ⟨some 2, true, none, none, 20⟩] [1, 2] true "w" "ws").1
        [1, 2] true "w" "ws").1
      = (set_objects_active [⟨some 1, false, none, none, 10⟩,
          ⟨some 2, true, none, none, 20⟩] [1, 2] true "w" "ws").1
    ∧ (set_objects_active [⟨some 1, false, none, none, 10⟩,
        ⟨some 2, true, none, none, 20⟩] [1, 2] true "w" "ws").2.1 = 2
    ∧ (set_objects_active
        (set_objects_active [⟨some 1, false, none, none, 10⟩,
          ⟨some 2, true, none, none, 20⟩] [1, 2] true "w" "ws").1
        [1, 2] true "w" "ws").2.1 = 2
    ∧ (set_objects_active
        (set_objects_active [⟨some 1, false, none, none, 10⟩,
          ⟨some 2, true, none, none, 20⟩] [1, 2] true "w" "ws").1
        [1, 2] true "w" "ws").2.2
      = (set_objects_active [⟨some 1, false, none, none, 10⟩,
          ⟨some 2, true, none, none, 20⟩] [1, 2] true "w" "ws").2.2 :=
  toggle_idempotent [⟨some 1, false, none, none, 10⟩,
    ⟨some 2, true, none, none, 20⟩] [1, 2] true "w" "ws"
    (by decide) (by decide) (by decide)

/-! ### The user-stamping save hook (`UserModelAdmin`) -/

/-- `UserModelAdmin._update_instance(instance, user)`: if the instance has
no primary key yet (`not instance.pk`), stamp `created_by`; always stamp
`updated_by`. -/
def update_instance (inst : Record) (user : Nat) : Record :=
  if inst.pk = none then { inst with created_by := some user, updated_by := some user }
  else { inst with updated_by := some user }

/-- The first primary key not used by any row of the store. -/
def freshPk (store : List Record) : Nat :=
  (store.foldl (fun m r => max m (r.pk.getD 0)) 0) + 1

/-- `instance.save()`: a full-record save.  An instance with a primary key
overwrites the row with that key (or is inserted if the row is gone); an
unsaved instance is inserted under a fresh key.  Returns the store and the
saved instance. -/
def saveInstance (store : List Record) (inst : Record) : List Record × Record :=
  match inst.pk with
  | some p =>
    if store.any (fun r => decide (r.pk = some p)) then
      (store.map (fun r => if r.pk = some p then inst else r), inst)
    else (store ++ [inst], inst)
  | none =>
    let inst' := { inst with pk := some (freshPk store) }
    (store ++ [inst'], inst')

/-- `UserModelAdmin.save_model(request, obj, form, change)`: stamp the
form's instance and save it. -/
def save_model (store : List Record) (form_instance : Record) (user : Nat) :
    List Record × Record :=
  let inst := update_instance form_instance user
  saveInstance store inst

/-- The deleted-objects loop of `save_formset` with its
`except AssertionError: pass` guard: deleting a row that is no longer
present raises, and the exception is swallowed, which silently abandons
the rest of the delete loop. -/
def deleteObjs (store : List Record) : List Nat → List Record
  | [] => store
  | p :: rest =>
    if store.any (fun r => decide (r.pk = some p)) then
      deleteObjs (store.filter (fun r => !decide (r.pk = some p))) rest
    else store

/-- `UserModelAdmin.save_formset(request, form, formset, change)`: delete
the objects the formset marked for deletion, then stamp and save each
remaining instance. -/
def save_formset (store : List Record) (instances : List Record)
    (deleted : List Nat) (user : Nat) : List Record :=
  let st := deleteObjs store deleted
  instances.foldl (fun s inst => (save_model s inst user).1) st

/-- The stored row with primary key `p`, if any. -/
def lookupPk (store : List Record) (p : Nat) : Option Record :=
  store.find? (fun r => decide (r.pk = some p))

example :
    save_formset [⟨some 1, true, none, none, 10⟩, ⟨some 2, true, none, none, 20⟩]
      [⟨some 2, false, some 3, some 3, 99⟩] [1] 9
      = [⟨some 2, false, some 3, some 9, 99⟩] := by
  decide

example :
    save_model [] ⟨none, true, none, none, 7⟩ 9
      = ([⟨some 1, true, some 9, some 9, 7⟩], ⟨some 1, true, some 9, some 9, 7⟩) := by
  decide

lemma update_instance_pk (inst : Record) (user : Nat) :
    (update_instance inst user).pk = inst.pk := by
  unfold update_instance
  split <;> rfl

lemma update_instance_updated_by (inst : Record) (user : Nat) :
    (update_instance inst user).updated_by = some user := by
  unfold update_instance
  split <;> rfl

lemma saveInstance_some (store : List Record) (inst : Record) (p : Nat)
    (h : inst.pk = some p) :
    saveInstance store inst
      = if store.any (fun r => decide (r.pk = some p)) then
          (store.map (fun r => if r.pk = some p then inst else r), inst)
        else (store ++ [inst], inst) := by
  unfold saveInstance
  rw [h]

lemma saveInstance_snd_fields (store : List Record) (inst : Record) :
    (saveInstance store inst).2.is_active = inst.is_active
    ∧ (saveInstance store inst).2.created_by = inst.created_by
    ∧ (saveInstance store inst).2.updated_by = inst.updated_by := by
  cases h : inst.pk with
  | none =>
    unfold saveInstance
    rw [h]
    exact ⟨rfl, rfl, rfl⟩
  | some p =>
    rw [saveInstance_some store inst p h]
    split <;> exact ⟨rfl, rfl, rfl⟩

lemma map_replace_pk (v : Record) (p : Nat) (hv : v.pk = some p) (r : Record) :
    (if r.pk = some p then v else r).pk = r.pk := by
  by_cases h : r.pk = some p <;> simp [h, hv]

lemma lookupPk_map_replace (store : List Record) (v : Record) (p : Nat)
    (hv : v.pk = some p) (q : Nat) :
    lookupPk (store.map (fun r => if r.pk = some p then v else r)) q
      = Option.map (fun r => if r.pk = some p then v else r) (lookupPk store q) := by
  unfold lookupPk
  rw [List.find?_map]
  have hpred : ((fun r => decide (r.pk = some q))
        ∘ (fun r => if r.pk = some p then v else r))
      = (fun r => decide (r.pk = some q)) :=
    funext fun r => by simp only [Function.comp_apply, map_replace_pk v p hv r]
  rw [hpred]

lemma lookupPk_pk {store : List Record} {q : Nat} {w : Record}
    (hw : lookupPk store q = some w) : w.pk = some q := by
  unfold lookupPk at hw
  simpa using List.find?_some hw

lemma save_model_lookup (store : List Record) (inst : Record) (user p : Nat)
    (h : inst.pk = some p) :
    lookupPk (save_model store inst user).1 p = some (update_instance inst user) := by
  have hupd : (update_instance inst user).pk = some p := by rw [update_instance_pk, h]
  unfold save_model
  rw [saveInstance_some store (update_instance inst user) p hupd]
  by_cases hany : store.any (fun r => decide (r.pk = some p)) = true
  · rw [if_pos hany]
    show lookupPk _ p = _
    rw [lookupPk_map_replace store _ p hupd p]
    have hsome : (lookupPk store p).isSome := by
      unfold lookupPk
      rw [List.find?_isSome]
      exact List.any_eq_true.mp hany
    obtain ⟨w, hw⟩ := Option.isSome_iff_exists.mp hsome
    rw [hw]
    simp [lookupPk_pk hw]
  · rw [if_neg hany]
    show lookupPk _ p = _
    unfold lookupPk
    rw [List.find?_append]
    have h1 : List.find? (fun r => decide (r.pk = some p)) store = none :=
      List.find?_eq_none.mpr (List.any_eq_false.mp (Bool.eq_false_iff.mpr hany))
    rw [h1, Option.none_or, List.find?_cons_of_pos _ (by simp [hupd])]

lemma save_model_lookup_other (store : List Record) (inst : Record) (user q p : Nat)
    (h : inst.pk = some p) (hne : p ≠ q) :
    lookupPk (save_model store inst user).1 q = lookupPk store q := by
  have hupd : (update_instance inst user).pk = some p := by rw [update_instance_pk, h]
  unfold save_model
  rw [saveInstance_some store (update_instance inst user) p hupd]
  by_cases hany : store.any (fun r => decide (r.pk = some p)) = true
  · rw [if_pos hany]
    show lookupPk _ q = _
    rw [lookupPk_map_replace store _ p hupd q]
    cases hw : lookupPk store q with
    | none => rfl
    | some w =>
      have hwq : w.pk = some q := lookupPk_pk hw
      have : (if w.pk = some p then update_instance inst user else w) = w :=
        if_neg (by rw [hwq]; exact fun hc => hne (Option.some.inj hc).symm)
      simp [this]
  · rw [if_neg hany]
    show lookupPk _ q = _
    unfold lookupPk
    rw [List.find?_append, List.find?_cons_of_neg _ (by simp [hupd]; exact fun hc => hne hc),
      List.find?_nil, Option.or_none]

lemma saveLoop_preserved :
    ∀ (instances st : List Record) (user q : Nat),
    (∀ i ∈ instances, i.pk ≠ some q ∧ i.pk ≠ none) →
    lookupPk (instances.foldl (fun s inst => (save_model s inst user).1) st) q
      = lookupPk st q
  | [], _, _, _, _ => rfl
  | j :: rest, st, user, q, h => by
    obtain ⟨hq, hn⟩ := h j (List.mem_cons_self j rest)
    obtain ⟨p, hp⟩ := Option.ne_none_iff_exists'.mp hn
    have hpq : p ≠ q := fun hc => hq (by rw [hp, hc])
    simp only [List.foldl_cons]
    rw [saveLoop_preserved rest _ user q (fun i hi => h i (List.mem_cons_of_mem j hi))]
    exact save_model_lookup_other st j user q p hp hpq

lemma saveLoop_lookup :
    ∀ (instances st : List Record) (user : Nat),
    (instances.map Record.pk).Nodup →
    (∀ i ∈ instances, i.pk ≠ none) →
    ∀ i ∈ instances, ∀ p, i.pk = some p →
    lookupPk (instances.foldl (fun s inst => (save_model s inst user).1) st) p
      = some (update_instance i user)
  | [], _, _, _, _, i, hi, _, _ => absurd hi (List.not_mem_nil i)
  | j :: rest, st, user, hnd, hsome, i, hi, p, hp => by
    rw [List.map_cons] at hnd
    simp only [List.foldl_cons]
    rcases List.mem_cons.mp hi with rfl | hmem
    · rw [saveLoop_preserved rest _ user p (fun k hk => ?_)]
      · exact save_model_lookup st i user p hp
      · refine ⟨fun hc => (List.nodup_cons.mp hnd).1 ?_,
          hsome k (List.mem_cons_of_mem i hk)⟩
        rw [hp, ← hc]
        exact List.mem_map_of_mem Record.pk hk
    · exact saveLoop_lookup rest _ user (List.nodup_cons.mp hnd).2
        (fun k hk => hsome k (List.mem_cons_of_mem j hk)) i hmem p hp

lemma deleteObjs_cons (store : List Record) (p : Nat) (rest : List Nat) :
    deleteObjs store (p :: rest)
      = if store.any (fun r => decide (r.pk = some p)) then
          deleteObjs (store.filter (fun r => !decide (r.pk = some p))) rest
        else store := rfl

lemma deleteObjs_absorbs (store : List Record) (p : Nat) (rest : List Nat)
    (h : store.any (fun r => decide (r.pk = some p)) = false) :
    deleteObjs store (p :: rest) = store := by
  rw [deleteObjs_cons, if_neg (by simp [h])]

lemma deleteObjs_all_present :
    ∀ (deleted : List Nat) (store : List Record), deleted.Nodup →
    (∀ q ∈ deleted, store.any (fun r => decide (r.pk = some q)) = true) →
    deleteObjs store deleted
      = store.filter (fun r => !deleted.any (fun q => decide (r.pk = some q)))
  | [], store, _, _ => by simp [deleteObjs]
  | p :: rest, store, hnd, hpres => by
    have hp := hpres p (List.mem_cons_self p rest)
    rw [deleteObjs_cons, if_pos hp,
      deleteObjs_all_present rest _ (List.nodup_cons.mp hnd).2 (fun q hq => ?_)]
    · rw [List.filter_filter]
      refine congrArg (fun f => List.filter f store) (funext fun r => ?_)
      simp [List.any_cons, Bool.not_or, Bool.and_comm]
    · rw [List.any_eq_true]
      obtain ⟨r, hr, hrq⟩ := List.any_eq_true.mp (hpres q (List.mem_cons_of_mem p hq))
      have hr' : r.pk = some q := by simpa using hrq
      have hqp : q ≠ p := fun hc => (List.nodup_cons.mp hnd).1 (hc ▸ hq)
      exact ⟨r, List.mem_filter.mpr ⟨hr, by simp [hr', hqp]⟩, hrq⟩

lemma lookupPk_deleted (store : List Record) (deleted : List Nat)
    (hnd : deleted.Nodup)
    (hpres : ∀ q ∈ deleted, store.any (fun r => decide (r.pk = some q)) = true)
    (q : Nat) (hq : q ∈ deleted) :
    lookupPk (deleteObjs store deleted) q = none := by
  rw [deleteObjs_all_present deleted store hnd hpres]
  unfold lookupPk
  rw [List.find?_eq_none]
  intro x hx hxq
  have hxf := List.mem_filter.mp hx
  have hx' : x.pk = some q := by simpa using hxq
  have hany : deleted.any (fun i => decide (x.pk = some i)) = true :=
    List.any_eq_true.mpr ⟨q, hq, by simp [hx']⟩
  have h2 := hxf.2
  rw [hany] at h2
  simp at h2

/-- C8 counterexample: the save hook does not stamp `created_by` with the
acting user on every save — for an instance that already has a primary key
(`instance.pk` truthy) only `updated_by` is stamped, and `created_by`
keeps its old value (user 7 here), not the acting user 9. -/
theorem save_hook_created_by_cex :
    (save_model [⟨some 1, true, some 7, some 7, 0⟩]
        ⟨some 1, true, some 7, some 7, 0⟩ 9).2.created_by ≠ some 9 := by
  decide

/-- C8 amended: on a full-record save through the save hook, `updated_by`
is always stamped with the acting user, while `created_by` is stamped only
when the record is new (no primary key yet) and is otherwise left
unchanged; in `save_formset` the records marked for deletion are deleted
before the remaining instances are saved — each instance ends up saved and
stamped (even if its key was in the deleted list), and a deleted key that
no instance re-saves is gone from the store. -/
theorem save_hook_stamps_and_delete_order
    (store instances : List Record) (deleted : List Nat) (user : Nat)
    (inst : Record) :
    ((save_model store inst user).2.updated_by = some user
      ∧ (inst.pk = none → (save_model store inst user).2.created_by = some user)
      ∧ (inst.pk ≠ none → (save_model store inst user).2.created_by = inst.created_by))
    ∧ ((instances.map Record.pk).Nodup → (∀ i ∈ instances, i.pk ≠ none) →
        ∀ i ∈ instances, ∀ p, i.pk = some p →
        lookupPk (save_formset store instances deleted user) p
          = some (update_instance i user))
    ∧ (deleted.Nodup →
        (∀ q ∈ deleted, store.any (fun r => decide (r.pk = some q)) = true) →
        ∀ q ∈ deleted, (∀ i ∈ instances, i.pk ≠ some q ∧ i.pk ≠ none) →
        lookupPk (save_formset store instances deleted user) q = none) := by
  refine ⟨⟨?_, ?_, ?_⟩, ?_, ?_⟩
  · show (saveInstance store (update_instance inst user)).2.updated_by = some user
    rw [(saveInstance_snd_fields store (update_instance inst user)).2.2,
      update_instance_updated_by]
  · intro h
    show (saveInstance store (update_instance inst user)).2.created_by = some user
    rw [(saveInstance_snd_fields store (update_instance inst user)).2.1]
    simp [update_instance, h]
  · intro h
    show (saveInstance store (update_instance inst user)).2.created_by = inst.created_by
    rw [(saveInstance_snd_fields store (update_instance inst user)).2.1]
    simp [update_instance, h]
  · intro hnd hsome i hi p hp
    exact saveLoop_lookup instances (deleteObjs store deleted) user hnd hsome i hi p hp
  · intro hnd hpres q hq hinst
    show lookupPk (instances.foldl (fun s j => (save_model s j user).1)
      (deleteObjs store deleted)) q = none
    rw [saveLoop_preserved instances (deleteObjs store deleted) user q hinst]
    exact lookupPk_deleted store deleted hnd hpres q hq

theorem save_hook_stamps_and_delete_order_witness :
    (save_model [⟨some 1, true, none, none, 10⟩, ⟨some 2, true, none, none, 20⟩]
        ⟨none, true, none, none, 7⟩ 9).2.created_by = some 9
    ∧ lookupPk (save_formset
        [⟨some 1, true, none, none, 10⟩, ⟨some 2, true, none, none, 20⟩]
        [⟨some 2, false, some 3, some 3, 99⟩] [1] 9) 2
      = some (update_instance ⟨some 2, false, some 3, some 3, 99⟩ 9)
    ∧ lookupPk (save_formset
        [⟨some 1, true, none, none, 10⟩, ⟨some 2, true, none, none, 20⟩]
        [⟨some 2, false, some 3, some 3, 99⟩] [1] 9) 1 = none :=
  ⟨(save_hook_stamps_and_delete_order
      [⟨some 1, true, none, none, 10⟩, ⟨some 2, true, none, none, 20⟩]
      [⟨some 2, false, some 3, some 3, 99⟩] [1] 9
      ⟨none, true, none, none, 7⟩).1.2.1 rfl,
   (save_hook_stamps_and_delete_order
      [⟨some 1, true, none, none, 10⟩, ⟨some 2, true, none, none, 20⟩]
      [⟨some 2, false, some 3, some 3, 99⟩] [1] 9
      ⟨none, true, none, none, 7⟩).2.1 (by decide) (by decide)
      ⟨some 2, false, some 3, some 3, 99⟩ (by decide) 2 rfl,
   (save_hook_stamps_and_delete_order
      [⟨some 1, true, none, none, 10⟩, ⟨some 2, true, none, none, 20⟩]
      [⟨some 2, false, some 3, some 3, 99⟩] [1] 9
      ⟨none, true, none, none, 7⟩).2.2 (by decide) (by decide) 1 (by decide)
      (by decide)⟩

/-- C9: asking the save hook to delete an already-deleted record does not
raise — the `AssertionError` is absorbed silently (the delete loop simply
stops, leaving the store as it stands) and the formset's remaining
instances are still stamped with the acting user and saved. -/
theorem double_delete_absorbed
    (store instances : List Record) (deleted : List Nat) (user p : Nat)
    (rest : List Nat) :
    (store.any (fun r => decide (r.pk = some p)) = false →
      deleteObjs store (p :: rest) = store)
    ∧ ((instances.map Record.pk).Nodup → (∀ i ∈ instances, i.pk ≠ none) →
        ∀ i ∈ instances, ∀ q, i.pk = some q →
        lookupPk (save_formset store instances deleted user) q
          = some (update_instance i user)) := by
  refine ⟨deleteObjs_absorbs store p rest, ?_⟩
  intro hnd hsome i hi q hq
  exact saveLoop_lookup instances (deleteObjs store deleted) user hnd hsome i hi q hq

theorem double_delete_absorbed_witness :
    deleteObjs [⟨some 2, true, none, none, 20⟩] (5 :: []) = [⟨some 2, true, none, none, 20⟩]
    ∧ lookupPk (save_formset [⟨some 2, true, none, none, 20⟩]
        [⟨some 2, false, none, none, 20⟩] [5] 9) 2
      = some (update_instance ⟨some 2, false, none, none, 20⟩ 9) :=
  ⟨(double_delete_absorbed [⟨some 2, true, none, none, 20⟩]
      [⟨some 2, false, none, none, 20⟩] [5] 9 5 []).1 (by decide),
   (double_delete_absorbed [⟨some 2, true, none, none, 20⟩]
      [⟨some 2, false, none, none, 20⟩] [5] 9 5 []).2 (by decide) (by decide)
      ⟨some 2, false, none, none, 20⟩ (by decide) 2 rfl⟩

/-! ### `ActiveModelAdmin.get_actions` -/

/-- `ActiveModelAdmin.get_actions(request)`: take the actions the base
class returns (a dict keyed by action name, embedded as its list of keys)
and, when the requesting user lacks delete permission, drop the bulk
`delete_selected` action if present. -/
def get_actions (has_delete_permission : Bool) (super_actions : List String) :
    List String :=
  if !has_delete_permission then
    if "delete_selected" ∈ super_actions then super_actions.erase "delete_selected"
    else super_actions
  else super_actions

/-- C10: `get_actions` removes `delete_selected` exactly when the user
lacks delete permission, leaving every other action (e.g.
`activate_objects`, `deactivate_objects`) untouched and in order; with
delete permission the action list is returned unmodified.  (Action names
are unique, as dict keys are.) -/
theorem get_actions_delete_permission (perm : Bool) (acts : List String)
    (hnd : acts.Nodup) :
    (perm = true → get_actions perm acts = acts)
    ∧ (perm = false →
        "delete_selected" ∉ get_actions perm acts
        ∧ (∀ a : String, a ≠ "delete_selected" →
            (a ∈ get_actions perm acts ↔ a ∈ acts))
        ∧ (get_actions perm acts).Sublist acts) := by
  constructor
  · intro h
    subst h
    rfl
  · intro h
    subst h
    by_cases hin : "delete_selected" ∈ acts
    · have hga : get_actions false acts = acts.erase "delete_selected" := by
        simp [get_actions, hin]
      rw [hga]
      exact ⟨hnd.not_mem_erase,
        fun a ha => by
          rw [hnd.mem_erase_iff]
          exact ⟨fun h' => h'.2, fun h' => ⟨ha, h'⟩⟩,
        List.erase_sublist _ _⟩
    · have hga : get_actions false acts = acts := by
        simp [get_actions, hin]
      rw [hga]
      exact ⟨hin, fun a _ => Iff.rfl, List.Sublist.refl acts⟩

theorem get_actions_delete_permission_witness :
    get_actions true ["activate_objects", "deactivate_objects", "delete_selected"]
      = ["activate_objects", "deactivate_objects", "delete_selected"]
    ∧ "delete_selected" ∉
        get_actions false ["activate_objects", "deactivate_objects", "delete_selected"]
    ∧ ("activate_objects" ∈
        get_actions false ["activate_objects", "deactivate_objects", "delete_selected"]
      ↔ "activate_objects" ∈ ["activate_objects", "deactivate_objects", "delete_selected"]) :=
  ⟨(get_actions_delete_permission true
      ["activate_objects", "deactivate_objects", "delete_selected"] (by decide)).1 rfl,
   ((get_actions_delete_permission false
      ["activate_objects", "deactivate_objects", "delete_selected"] (by decide)).2 rfl).1,
   ((get_actions_delete_permission false
      ["activate_objects", "deactivate_objects", "delete_selected"] (by decide)).2 rfl).2.1
      "activate_objects" (by decide)⟩
